import Mathlib

/-!
Shallow embedding of the concurrency substrate of an xv6-style teaching
kernel written in Rust: the spin-lock primitive with per-core
interrupt-nesting accounting (src/spinlock.rs), and the process table with
its sleep/wakeup/sched protocol and diagnostics (src/proc.rs).

Machine state that the Rust code reads through CSRs is made explicit:
the hardware interrupt-enable bit (the SIE bit of sstatus, accessed by
intr_get/intr_on/intr_off) is a `Bool`, and each hart's `Cpu` record keeps
the `noff` nesting depth and the `intena` saved flag exactly as in the
source.  A `panic!` is modelled as an error value carrying the panic
message; a spin loop on a lock held by another hart is modelled as a
`blocked` outcome, since in a sequential evaluation it never terminates.
Lock words (`AtomicPtr<Cpu>`) are modelled as `Option Nat`, the owning
hart's identity or `none` for the null pointer; `ptr::eq` on process slots
becomes equality of slot indices.
-/

namespace XV6

/-- The `ProcState` enumeration from src/proc.rs. -/
inductive ProcState where
  | Unused
  | Used
  | Sleeping
  | Runnable
  | Running
  | Zombie
  deriving DecidableEq, Repr

/-- The guarded fields of a process slot, `ProcControl` from src/proc.rs. -/
structure ProcControl where
  state : ProcState
  chan : Option Nat
  killed : Bool
  xstate : Int
  pid : Nat
  deriving DecidableEq, Repr

/-- The per-hart fields of `Cpu` used by the lock/interrupt accounting:
`noff` (depth of push_off nesting) and `intena` (were interrupts enabled
before push_off?). -/
structure Cpu where
  noff : Nat
  intena : Bool
  deriving DecidableEq, Repr

/-- The interrupt-relevant machine state of one hart: the hardware
interrupt-enable bit `intr` (read by `intr_get`, written by
`intr_on`/`intr_off`) together with that hart's `Cpu` record. -/
structure IState where
  intr : Bool
  cpu : Cpu
  deriving DecidableEq, Repr

/-- Embeds `push_off` from src/spinlock.rs: record the current interrupt-enable
state, disable interrupts, remember the pre-disable flag only if the depth
was 0, then increment the depth. -/
def push_off (s : IState) : IState :=
  let old := s.intr
  let cpu1 := if s.cpu.noff = 0 then { s.cpu with intena := old } else s.cpu
  { intr := false, cpu := { cpu1 with noff := cpu1.noff + 1 } }

/-- Embeds `pop_off` from src/spinlock.rs: fatal if interrupts read enabled or if
the depth is already 0; decrement the depth; re-enable interrupts when the
depth reaches 0 and the remembered flag was set. -/
def pop_off (s : IState) : Except String IState :=
  if s.intr then Except.error "pop_off() called with interrupts enabled"
  else if s.cpu.noff < 1 then Except.error "pop_off() called too many times"
  else
    let noff1 := s.cpu.noff - 1
    if noff1 = 0 ∧ s.cpu.intena then
      Except.ok { intr := true, cpu := { s.cpu with noff := noff1 } }
    else
      Except.ok { intr := s.intr, cpu := { s.cpu with noff := noff1 } }

/-- Runs `m` successive calls to `pop_off`, stopping at the first panic. -/
def pop_offN : Nat → IState → Except String IState
  | 0, s => Except.ok s
  | m + 1, s => (pop_off s).bind (pop_offN m)

/-- Embeds `SpinMutex::holding` from src/spinlock.rs: does the lock word name the
calling hart?  (`locked.load() == mycpu`). -/
def holding (me : Nat) (owner : Option Nat) : Bool := owner == some me

/-- The state touched by one `SpinMutex::lock` call: the calling hart's
interrupt state and the lock word of this one mutex. -/
structure LockState where
  istate : IState
  owner : Option Nat
  deriving DecidableEq, Repr

/-- Outcome of `SpinMutex::lock`: the guard was produced, or the call
panicked, or the CAS loop spins on a lock word owned by another hart
(which, evaluated sequentially, never returns). -/
inductive LockResult where
  | acquired (s : LockState)
  | panicked (msg : String) (s : LockState)
  | blocked (s : LockState)
  deriving DecidableEq, Repr

/-- Embeds `SpinMutex::lock` from src/spinlock.rs: `push_off()`; panic
`"{name} is already locked"` if the calling hart already owns the lock;
otherwise the compare-exchange loop, which succeeds exactly when the lock
word is null. -/
def SpinMutex.lock (name : String) (me : Nat) (s : LockState) : LockResult :=
  let s1 : LockState := { s with istate := push_off s.istate }
  if holding me s1.owner then
    LockResult.panicked (name ++ " is already locked") s1
  else
    match s1.owner with
    | none => LockResult.acquired { s1 with owner := some me }
    | some _ => LockResult.blocked s1

/-- Embeds `Drop for SpinMutexGuard` from src/spinlock.rs: panic
`"{name} is not held"` unless the calling hart owns the lock; store null
into the lock word; `pop_off()`. -/
def SpinMutexGuard.drop (name : String) (me : Nat) (s : LockState) :
    Except String LockState :=
  if ¬ holding me s.owner then Except.error (name ++ " is not held")
  else
    match pop_off s.istate with
    | Except.error msg => Except.error msg
    | Except.ok i1 => Except.ok { istate := i1, owner := none }

/-- The effect of `ProcList::wakeup` on a single non-caller slot, the body
of the lock-protected region in src/proc.rs lines 65-72: if the state is
`Sleeping` and the slot's channel equals `chan`, set the state to
`Runnable`; the channel itself is not cleared here. -/
def wakeupSlot (chan : Nat) (p : ProcControl) : ProcControl :=
  if p.state = ProcState.Sleeping then
    match p.chan with
    | some proc_chan =>
        if proc_chan = chan then { p with state := ProcState.Runnable } else p
    | none => p
  else p

/-- One iteration of the `wakeup` loop for the slot at index `i`:
`CPUS.myproc()` is re-read each iteration (`myproc` here); if it is `none`
nothing happens, and if it names this very slot (`ptr::eq`, modelled as
index equality) the slot is skipped. -/
def wakeupBody (myproc : Option Nat) (chan : Nat) (i : Nat)
    (p : ProcControl) : ProcControl :=
  match myproc with
  | some me => if i = me then p else wakeupSlot chan p
  | none => p

/-- The `for proc in &self.list` loop of `ProcList::wakeup`, with `i` the
index of the first slot of the remaining list. -/
def wakeupGo (myproc : Option Nat) (chan : Nat) :
    Nat → List ProcControl → List ProcControl
  | _, [] => []
  | i, p :: rest => wakeupBody myproc chan i p :: wakeupGo myproc chan (i + 1) rest

/-- Embeds `ProcList::wakeup` from src/proc.rs, as the transformation it applies
to the guarded fields of the process table; `myproc` is the slot index of
the calling hart's current process, if any. -/
def wakeup (myproc : Option Nat) (chan : Nat)
    (procs : List ProcControl) : List ProcControl :=
  wakeupGo myproc chan 0 procs

/-- The values `ProcList::sched` reads: `myproc.control.holding()`,
`CPUS.mycpu().noff`, `proc.state`, `intr_get()` and `CPUS.mycpu().intena`
for the calling hart. -/
structure SchedIn where
  holdingP : Bool
  noff : Nat
  state : ProcState
  intr : Bool
  intena : Bool
  deriving DecidableEq, Repr

/-- Outcome of `ProcList::sched`: the call returned without doing anything
because `CPUS.myproc()` was `None`, or it panicked, or it reached
`swtch`; `switched` carries the value of `mycpu().intena` after the final
restoring store `CPUS.mycpu().intena = intena`. -/
inductive SchedResult where
  | noProc
  | panicked (msg : String)
  | switched (intenaFinal : Bool)
  deriving DecidableEq, Repr

/-- Embeds `ProcList::sched` from src/proc.rs: the four fatal checks in source
order, then `swtch`; `intenaDuring` is the (arbitrary) value the scheduler
loop left in `mycpu().intena` when `swtch` returns, which the final store
overwrites with the saved `intena`. -/
def sched (myproc : Option SchedIn) (intenaDuring : Bool) : SchedResult :=
  match myproc with
  | none => SchedResult.noProc
  | some p =>
    if ¬ p.holdingP then SchedResult.panicked "sched: not holding p->lock"
    else if p.noff ≠ 1 then SchedResult.panicked "sched: cpus.mycpu.noff != 1"
    else if p.state = ProcState.Running then SchedResult.panicked "sched: proc is running"
    else if p.intr then SchedResult.panicked "sched: interrupts are enabled"
    else
      let intena := p.intena
      -- swtch(...): while this thread is switched out the scheduler loop
      -- may overwrite mycpu().intena; on return it holds `intenaDuring`.
      let cpuIntena := intenaDuring
      -- CPUS.mycpu().intena = intena
      let cpuIntena := intena
      SchedResult.switched cpuIntena

/-- The state touched by one `ProcList::sleep` call on one hart: that
hart's interrupt state, the lock word of the external guard's mutex, the
lock word of the calling process's own slot (`p.control`), and that slot's
guarded fields. -/
structure SleepState where
  istate : IState
  guardOwner : Option Nat
  controlOwner : Option Nat
  ctrl : ProcControl
  deriving DecidableEq, Repr

/-- Outcome of running `ProcList::sleep` up to the `swtch` inside
`sched`: the call returned at once because `CPUS.myproc()` was `None`, or
it panicked, or it spins forever on a lock owned by another hart, or it
reached `swtch` and yielded the hart in the recorded state.  The
post-resumption tail of `sleep` (clear `chan`, drop the slot guard,
re-lock the external mutex and forget the guard) runs only after the
scheduler switches back and is modelled separately by `sleepResume`. -/
inductive SleepOutcome where
  | noProc (s : SleepState)
  | panicked (msg : String) (s : SleepState)
  | blocked (s : SleepState)
  | switched (s : SleepState)
  deriving DecidableEq, Repr

/-- Embeds `ProcList::sleep` from src/proc.rs, up to the context switch, for the
hart `me` whose current process (if any) owns the slot being put to
sleep: `CPUS.myproc()` (a balanced push_off/pop_off pair around the read),
`p.control.lock()` (the slot mutex is named "proc"), the unchecked
`mutex.force_unlock()` of the external guard (a bare store of null, with
no pop_off), the two guarded-field writes, then `ProcList::sched`. -/
def sleep (me chan : Nat) (myprocIsSome : Bool) (s : SleepState) : SleepOutcome :=
  match pop_off (push_off s.istate) with
  | Except.error msg => SleepOutcome.panicked msg s
  | Except.ok i1 =>
    if myprocIsSome then
      -- let mut proc_ctrl = p.control.lock();
      match SpinMutex.lock "proc" me { istate := i1, owner := s.controlOwner } with
      | LockResult.panicked msg l1 =>
          SleepOutcome.panicked msg { s with istate := l1.istate, controlOwner := l1.owner }
      | LockResult.blocked l1 =>
          SleepOutcome.blocked { s with istate := l1.istate, controlOwner := l1.owner }
      | LockResult.acquired l1 =>
        -- unsafe { mutex.force_unlock() }: store null, no pop_off
        let s2 : SleepState :=
          { istate := l1.istate, guardOwner := none, controlOwner := l1.owner,
            ctrl := s.ctrl }
        -- proc_ctrl.chan = Some(chan); proc_ctrl.state = ProcState::Sleeping;
        let s3 : SleepState :=
          { s2 with ctrl := { s2.ctrl with chan := some chan, state := ProcState.Sleeping } }
        -- ProcList::sched(&proc_ctrl)
        match sched (some { holdingP := holding me s3.controlOwner,
                            noff := s3.istate.cpu.noff,
                            state := s3.ctrl.state,
                            intr := s3.istate.intr,
                            intena := s3.istate.cpu.intena }) s3.istate.cpu.intena with
        | SchedResult.panicked msg => SleepOutcome.panicked msg s3
        | SchedResult.noProc => SleepOutcome.switched s3
        | SchedResult.switched _ => SleepOutcome.switched s3
    else SleepOutcome.noProc { s with istate := i1 }

/-- The post-resumption tail of `ProcList::sleep` from src/proc.rs,
entered when the scheduler switches back into the process: clear `chan`,
drop the slot guard (`drop(proc_ctrl)`), re-lock the external mutex and
forget the fresh guard (`core::mem::forget(mutex.lock())`), which leaves
the lock word owned but performs no matching pop_off for the caller. -/
def sleepResume (me : Nat) (s : SleepState) : SleepOutcome :=
  -- proc_ctrl.chan = None;
  let s1 : SleepState := { s with ctrl := { s.ctrl with chan := none } }
  -- drop(proc_ctrl);
  match SpinMutexGuard.drop "proc" me { istate := s1.istate, owner := s1.controlOwner } with
  | Except.error msg => SleepOutcome.panicked msg s1
  | Except.ok l1 =>
    -- core::mem::forget(mutex.lock());
    match SpinMutex.lock "guard" me { istate := l1.istate, owner := s1.guardOwner } with
    | LockResult.panicked msg l2 =>
        SleepOutcome.panicked msg
          { istate := l2.istate, guardOwner := l2.owner, controlOwner := l1.owner,
            ctrl := s1.ctrl }
    | LockResult.blocked l2 =>
        SleepOutcome.blocked
          { istate := l2.istate, guardOwner := l2.owner, controlOwner := l1.owner,
            ctrl := s1.ctrl }
    | LockResult.acquired l2 =>
        SleepOutcome.switched
          { istate := l2.istate, guardOwner := l2.owner, controlOwner := l1.owner,
            ctrl := s1.ctrl }

/-- One process slot as `ProcList::proc_dump` sees it: the slot's control
lock word, its guarded fields, and the private `name` field. -/
structure DumpSlot where
  owner : Option Nat
  ctrl : ProcControl
  name : String
  deriving DecidableEq, Repr

/-- Outcome of `ProcList::proc_dump`: the list of `(pid, state, name)`
lines printed, or a panic, or an unbounded spin on the slot whose index is
recorded (the slot's control lock being owned by another hart). -/
inductive DumpOutcome where
  | done (lines : List (Nat × ProcState × String)) (s : IState)
  | panicked (msg : String) (s : IState)
  | blocked (slotIdx : Nat) (s : IState)
  deriving DecidableEq, Repr

/-- The `for p in &self.list` loop of `ProcList::proc_dump` from
src/proc.rs, with `i` the index of the first remaining slot: for each
slot, `p.control.lock()`, read `(pid, state)`, drop the guard, skip the
slot if the state is `Unused`, otherwise print `pid state name`. -/
def procDumpGo (me : Nat) : Nat → IState → List DumpSlot → DumpOutcome
  | _, is, [] => DumpOutcome.done [] is
  | i, is, slot :: rest =>
    -- let proc = p.control.lock();
    match SpinMutex.lock "proc" me { istate := is, owner := slot.owner } with
    | LockResult.panicked msg l1 => DumpOutcome.panicked msg l1.istate
    | LockResult.blocked l1 => DumpOutcome.blocked i l1.istate
    | LockResult.acquired l1 =>
      -- (proc.pid, proc.state), then the guard drops at the end of the block
      let pid := slot.ctrl.pid
      let st := slot.ctrl.state
      match SpinMutexGuard.drop "proc" me l1 with
      | Except.error msg => DumpOutcome.panicked msg l1.istate
      | Except.ok l2 =>
        match procDumpGo me (i + 1) l2.istate rest with
        | DumpOutcome.done lines is4 =>
            if st = ProcState.Unused then DumpOutcome.done lines is4
            else DumpOutcome.done ((pid, st, slot.name) :: lines) is4
        | other => other

/-- Embeds `ProcList::proc_dump` from src/proc.rs, run by hart `me`. -/
def proc_dump (me : Nat) (is : IState) (slots : List DumpSlot) : DumpOutcome :=
  procDumpGo me 0 is slots

/-!
Two-hart interleaving model for the sleep/wakeup handoff.

Hart 0 runs a process (slot `S`) that calls `sleep(ch, guard)` while
holding the external guard as its only lock (`noff = 1`).  Hart 1 is the
producer/waker: it acquires the guard, produces the condition and releases
the guard, then calls `wakeup(ch)`, whose only relevant iteration is the
one for slot S (the waker's own process, if any, is a different slot).
Each program counter step is the next lock acquisition, release, or
guarded-field write performed by the source; a lock acquisition is enabled
only when the lock word is null, so a hart spinning on a held lock simply
has no enabled step.
-/

/-- A configuration of the two-hart interleaving: both program counters,
the two shared lock words, hart 0's push_off depth, hart 1's push_off
depth, and slot S's guarded fields. -/
structure Config where
  pcS : Nat
  pcW : Nat
  guardOwner : Option Nat
  controlOwner : Option Nat
  noffS : Nat
  noffW : Nat
  ctrl : ProcControl
  deriving DecidableEq, Repr

/-- The initial configuration: the sleeping process is `Running` on hart 0
and holds the external guard as its only lock; the waker has not started;
slot S's lock is free. -/
def initConfig (pid0 : Nat) : Config :=
  { pcS := 0, pcW := 0, guardOwner := some 0, controlOwner := none,
    noffS := 1, noffW := 0,
    ctrl := { state := ProcState.Running, chan := none, killed := false,
              xstate := 0, pid := pid0 } }

/-- One interleaving step, `ch` being the channel both sides use.
Sleeper (hart 0), following `ProcList::sleep`:
`sAcquire` is `p.control.lock()` (push_off then CAS, enabled when the lock
word is null); `sForceUnlock` is `mutex.force_unlock()` (a bare store of
null, no pop_off); `sSetChan` and `sSetSleeping` are the two guarded
writes; `sSchedPanic` is `sched` hitting its fatal `noff != 1` check;
`sSchedSwitch` is `sched` passing all checks and reaching `swtch`, after
which the scheduler loop releases the slot lock.
Waker (hart 1), following the producer protocol and `ProcList::wakeup`:
`wAcquireGuard` takes the guard to produce the condition; `wReleaseGuard`
publishes it and drops the guard; `wAcquireControl` is the `wakeup` loop
locking slot S; `wCheck` is the guarded body (set `Runnable` if the slot
sleeps on `ch`); `wRelease` drops the slot lock. -/
inductive Step (ch : Nat) : Config → Config → Prop where
  | sAcquire (c : Config) :
      c.pcS = 0 → c.controlOwner = none →
      Step ch c { c with pcS := 1, controlOwner := some 0, noffS := c.noffS + 1 }
  | sForceUnlock (c : Config) :
      c.pcS = 1 →
      Step ch c { c with pcS := 2, guardOwner := none }
  | sSetChan (c : Config) :
      c.pcS = 2 →
      Step ch c { c with pcS := 3, ctrl := { c.ctrl with chan := some ch } }
  | sSetSleeping (c : Config) :
      c.pcS = 3 →
      Step ch c { c with pcS := 4, ctrl := { c.ctrl with state := ProcState.Sleeping } }
  | sSchedPanic (c : Config) :
      c.pcS = 4 → c.noffS ≠ 1 →
      Step ch c { c with pcS := 5 }
  | sSchedSwitch (c : Config) :
      c.pcS = 4 → c.noffS = 1 →
      Step ch c { c with pcS := 6, controlOwner := none }
  | wAcquireGuard (c : Config) :
      c.pcW = 0 → c.guardOwner = none →
      Step ch c { c with pcW := 1, guardOwner := some 1, noffW := c.noffW + 1 }
  | wReleaseGuard (c : Config) :
      c.pcW = 1 →
      Step ch c { c with pcW := 2, guardOwner := none, noffW := c.noffW - 1 }
  | wAcquireControl (c : Config) :
      c.pcW = 2 → c.controlOwner = none →
      Step ch c { c with pcW := 3, controlOwner := some 1, noffW := c.noffW + 1 }
  | wCheck (c : Config) :
      c.pcW = 3 →
      Step ch c { c with pcW := 4, ctrl := wakeupSlot ch c.ctrl }
  | wRelease (c : Config) :
      c.pcW = 4 →
      Step ch c { c with pcW := 5, controlOwner := none, noffW := c.noffW - 1 }

/-- The configurations reachable from `c0` by interleaving steps. -/
inductive Reach (ch : Nat) (c0 : Config) : Config → Prop where
  | refl : Reach ch c0 c0
  | tail {b c : Config} : Reach ch c0 b → Step ch b c → Reach ch c0 c

/-- Inductive invariant for the interleaving model: the slot lock is taken
by the sleeper at its first step and, because `force_unlock` skipped the
matching `pop_off`, `noffS` is stuck at 2 from then on, so `sched` can
only panic and the lock is never released; the waker can get the guard
only after `sForceUnlock`, hence always finds the slot lock owned by
hart 0 and never reaches its `wCheck` step. -/
def ConfigInv (c : Config) : Prop :=
  (c.pcS = 0 → c.guardOwner = some 0 ∧ c.controlOwner = none ∧ c.noffS = 1)
  ∧ (c.pcS = 1 → c.guardOwner = some 0)
  ∧ (1 ≤ c.pcS → c.controlOwner = some 0 ∧ c.noffS = 2)
  ∧ (1 ≤ c.pcW → 2 ≤ c.pcS)
  ∧ c.pcW ≤ 2
  ∧ c.pcS ≤ 5
  ∧ c.ctrl.state ≠ ProcState.Runnable

/-!
Data-level transition system on the process table for the
channel/state invariant: the guarded-field mutations performed by the
operations of src/proc.rs, plus the scheduler loop's dispatch (which is
not part of this repository's sources).
-/

/-- Replace the slot at index `i` of the table. -/
def setSlot (procs : List ProcControl) (i : Nat) (p : ProcControl) : List ProcControl :=
  procs.set i p

/-- One table-level operation of the protocol, acting on the guarded
fields of all slots.  `wakeupStep` is `ProcList::wakeup`; `sleepSet` is
the pair of writes `chan = Some(chan); state = Sleeping` that
`ProcList::sleep` performs under the slot lock on the calling (Running)
process; `sleepClear` is the `chan = None` write `sleep` performs on
resumption (the scheduler has set the slot back to `Running` by then);
`schedStep` is `ProcList::sched`, which writes no guarded field.
`schedulerDispatch` — Modelled from the spec: the per-hart scheduler loop
(not in src/) picks a Runnable slot and marks it Running before switching
into it. -/
inductive TableStep : List ProcControl → List ProcControl → Prop where
  | wakeupStep (procs : List ProcControl) (myproc : Option Nat) (ch : Nat) :
      TableStep procs (wakeup myproc ch procs)
  | sleepSet (procs : List ProcControl) (i ch : Nat) (p : ProcControl) :
      procs[i]? = some p → p.state = ProcState.Running →
      TableStep procs (setSlot procs i { p with chan := some ch, state := ProcState.Sleeping })
  | sleepClear (procs : List ProcControl) (i : Nat) (p : ProcControl) :
      procs[i]? = some p → p.state = ProcState.Running →
      TableStep procs (setSlot procs i { p with chan := none })
  | schedStep (procs : List ProcControl) :
      TableStep procs procs
  | schedulerDispatch (procs : List ProcControl) (i : Nat) (p : ProcControl) :
      procs[i]? = some p → p.state = ProcState.Runnable →
      TableStep procs (setSlot procs i { p with state := ProcState.Running })

/-- The one-directional channel invariant that the code maintains: a
Sleeping slot always has a channel recorded. -/
def sleepChanInv (procs : List ProcControl) : Prop :=
  ∀ p ∈ procs, p.state = ProcState.Sleeping → p.chan.isSome

/-- The two-directional invariant claimed by the data model section of the
spec: a slot's channel is recorded exactly when the slot is Sleeping. -/
def sleepChanIff (procs : List ProcControl) : Prop :=
  ∀ p ∈ procs, (p.chan.isSome ↔ p.state = ProcState.Sleeping)

/-! Helper lemmas. -/

theorem push_off_noff (s : IState) : (push_off s).cpu.noff = s.cpu.noff + 1 := by
  unfold push_off
  by_cases h : s.cpu.noff = 0 <;> simp [h]

theorem push_off_pos (k : Nat) (e : Bool) (h : k ≠ 0) :
    push_off { intr := false, cpu := { noff := k, intena := e } }
      = { intr := false, cpu := { noff := k + 1, intena := e } } := by
  simp [push_off, h]

theorem push_off_iter (m k : Nat) (e : Bool) (h : k ≠ 0) :
    push_off^[m] { intr := false, cpu := { noff := k, intena := e } }
      = { intr := false, cpu := { noff := k + m, intena := e } } := by
  induction m generalizing k with
  | zero => simp
  | succ m ih =>
      rw [Function.iterate_succ_apply, push_off_pos k e h, ih (k + 1) (by omega)]
      congr 2
      omega

theorem pop_offN_lt (m : Nat) : ∀ (k : Nat) (e : Bool), m < k →
    pop_offN m { intr := false, cpu := { noff := k, intena := e } }
      = Except.ok { intr := false, cpu := { noff := k - m, intena := e } } := by
  induction m with
  | zero => intro k e _; simp [pop_offN]
  | succ m ih =>
      intro k e h
      have hk1 : ¬ k < 1 := by omega
      have hk0 : ¬ (k - 1 = 0 ∧ e = true) := by
        rintro ⟨h1, -⟩
        omega
      have hkm : k - 1 - m = k - (m + 1) := by omega
      rw [pop_offN, pop_off]
      rw [if_neg (by simp), if_neg hk1, if_neg hk0]
      show pop_offN m { intr := false, cpu := { noff := k - 1, intena := e } } = _
      rw [ih (k - 1) e (by omega), hkm]

theorem wakeupGo_length (mp : Option Nat) (ch : Nat) :
    ∀ (l : List ProcControl) (i : Nat), (wakeupGo mp ch i l).length = l.length := by
  intro l
  induction l with
  | nil => intro i; rfl
  | cons q rest ih => intro i; simp [wakeupGo, ih]

theorem wakeupBody_some (me ch i : Nat) (p : ProcControl) :
    wakeupBody (some me) ch i p = if i = me then p else wakeupSlot ch p := rfl

theorem wakeupSlot_eq (ch : Nat) (p : ProcControl) :
    wakeupSlot ch p =
      if p.state = ProcState.Sleeping ∧ p.chan = some ch
      then { p with state := ProcState.Runnable }
      else p := by
  obtain ⟨st, chn, k, x, pd⟩ := p
  rw [wakeupSlot]
  cases chn with
  | none => by_cases hst : st = ProcState.Sleeping <;> simp [hst]
  | some pc =>
      by_cases hst : st = ProcState.Sleeping <;> by_cases hc : pc = ch <;>
        simp [hst, hc]

theorem wakeupGo_none (ch : Nat) : ∀ (i : Nat) (l : List ProcControl),
    wakeupGo none ch i l = l := by
  intro i l
  induction l generalizing i with
  | nil => rfl
  | cons p rest ih => simp [wakeupGo, wakeupBody, ih]

theorem wakeupGo_getElem (mp : Option Nat) (ch : Nat) :
    ∀ (l : List ProcControl) (i j : Nat),
      (wakeupGo mp ch i l)[j]? = (l[j]?).map (wakeupBody mp ch (i + j)) := by
  intro l
  induction l with
  | nil => intro i j; simp [wakeupGo]
  | cons p rest ih =>
      intro i j
      cases j with
      | zero => simp [wakeupGo]
      | succ m =>
          simp only [wakeupGo, List.getElem?_cons_succ]
          rw [ih (i + 1) m]
          have : i + 1 + m = i + (m + 1) := by omega
          rw [this]

theorem wakeupSlot_sleeping_chan (ch : Nat) (q : ProcControl)
    (h : q.state = ProcState.Sleeping → q.chan.isSome) :
    (wakeupSlot ch q).state = ProcState.Sleeping → (wakeupSlot ch q).chan.isSome := by
  rw [wakeupSlot_eq]
  by_cases hc : q.state = ProcState.Sleeping ∧ q.chan = some ch
  · rw [if_pos hc]
    intro hss
    exact absurd hss (by simp)
  · rw [if_neg hc]
    exact h

theorem wakeupBody_sleeping_chan (mp : Option Nat) (ch i : Nat) (q : ProcControl)
    (h : q.state = ProcState.Sleeping → q.chan.isSome) :
    (wakeupBody mp ch i q).state = ProcState.Sleeping → (wakeupBody mp ch i q).chan.isSome := by
  cases mp with
  | none => exact h
  | some me =>
      rw [wakeupBody_some]
      by_cases hme : i = me
      · rw [if_pos hme]
        exact h
      · rw [if_neg hme]
        exact wakeupSlot_sleeping_chan ch q h

theorem sleepChanInv_wakeupGo (mp : Option Nat) (ch : Nat) :
    ∀ (l : List ProcControl) (i : Nat),
      sleepChanInv l → sleepChanInv (wakeupGo mp ch i l) := by
  intro l
  induction l with
  | nil => intro i h; exact h
  | cons q rest ih =>
      intro i h p hp hsleep
      rw [wakeupGo] at hp
      rcases List.mem_cons.mp hp with hq | hrest
      · subst hq
        exact wakeupBody_sleeping_chan mp ch i q
          (h q (List.mem_cons_self q rest)) hsleep
      · exact ih (i + 1) (fun r hr => h r (List.mem_cons_of_mem q hr)) p hrest hsleep

theorem mem_setSlot (l : List ProcControl) (i : Nat) (b p : ProcControl)
    (hp : p ∈ setSlot l i b) : p ∈ l ∨ p = b := by
  rw [setSlot] at hp
  exact List.mem_or_eq_of_mem_set hp

/-! Claim theorems. -/

/-- C7: on a single hart starting at nesting depth 0, N `push_off` calls
followed by M < N `pop_off` calls succeed and leave interrupts disabled
with the depth at N - M; a `pop_off` at depth 0 fails fatally, as does a
`pop_off` called while interrupts read enabled. -/
theorem c7_push_pop_discipline (i0 e0 e : Bool) (c : Cpu) (N M : Nat) (h : M < N) :
    pop_offN M (push_off^[N] { intr := i0, cpu := { noff := 0, intena := e0 } })
      = Except.ok { intr := false, cpu := { noff := N - M, intena := i0 } }
    ∧ pop_off { intr := false, cpu := { noff := 0, intena := e } }
      = Except.error "pop_off() called too many times"
    ∧ pop_off { intr := true, cpu := c }
      = Except.error "pop_off() called with interrupts enabled" := by
  refine ⟨?_, by simp [pop_off], by simp [pop_off]⟩
  obtain ⟨n, rfl⟩ : ∃ n, N = n + 1 := ⟨N - 1, by omega⟩
  have h1 : push_off { intr := i0, cpu := { noff := 0, intena := e0 } }
      = { intr := false, cpu := { noff := 1, intena := i0 } } := by
    simp [push_off]
  have h2 : 1 + n - M = n + 1 - M := by omega
  rw [Function.iterate_succ_apply, h1, push_off_iter n 1 i0 (by omega),
    pop_offN_lt M (1 + n) i0 (by omega), h2]

/-- Witness for C7 at N = 3, M = 1. -/
theorem c7_push_pop_discipline_witness :
    (1 < 3)
    ∧ (pop_offN 1 (push_off^[3] { intr := true, cpu := { noff := 0, intena := false } })
        = Except.ok { intr := false, cpu := { noff := 3 - 1, intena := true } }
      ∧ pop_off { intr := false, cpu := { noff := 0, intena := false } }
        = Except.error "pop_off() called too many times"
      ∧ pop_off { intr := true, cpu := { noff := 5, intena := true } }
        = Except.error "pop_off() called with interrupts enabled") :=
  ⟨by omega, c7_push_pop_discipline true false false { noff := 5, intena := true } 3 1 (by omega)⟩

/-- C8: on a hart at nesting depth 0, `push_off` immediately followed by
`pop_off` succeeds and restores the interrupt-enable flag to its initial
value, with the depth back at 0. -/
theorem c8_push_pop_roundtrip (s : IState) (h : s.cpu.noff = 0) :
    ∃ s' : IState, pop_off (push_off s) = Except.ok s'
      ∧ s'.intr = s.intr ∧ s'.cpu.noff = 0 := by
  obtain ⟨i, n, e⟩ := s
  simp only at h
  subst h
  cases i <;> simp [push_off, pop_off]

/-- Witness for C8 with interrupts initially enabled. -/
theorem c8_push_pop_roundtrip_witness :
    ∃ s' : IState,
      pop_off (push_off { intr := true, cpu := { noff := 0, intena := false } })
        = Except.ok s'
      ∧ s'.intr = ({ intr := true, cpu := { noff := 0, intena := false } } : IState).intr
      ∧ s'.cpu.noff = 0 :=
  c8_push_pop_roundtrip { intr := true, cpu := { noff := 0, intena := false } } rfl

/-- C9: a `lock()` call on a SpinMutex already owned by the calling hart
panics with "{name} is already locked"; at the panic the nesting depth has
already been incremented by `push_off` and the lock word is untouched (no
CAS was attempted). -/
theorem c9_lock_reentrant_fatal (name : String) (me : Nat) (s : LockState)
    (h : s.owner = some me) :
    SpinMutex.lock name me s
      = LockResult.panicked (name ++ " is already locked")
          { istate := push_off s.istate, owner := s.owner }
    ∧ (push_off s.istate).cpu.noff = s.istate.cpu.noff + 1 := by
  refine ⟨?_, push_off_noff s.istate⟩
  simp [SpinMutex.lock, holding, h]

/-- Witness for C9: hart 0 re-locking the slot mutex it already owns. -/
theorem c9_lock_reentrant_fatal_witness :
    SpinMutex.lock "proc" 0
        { istate := { intr := false, cpu := { noff := 1, intena := true } }, owner := some 0 }
      = LockResult.panicked ("proc" ++ " is already locked")
          { istate := push_off { intr := false, cpu := { noff := 1, intena := true } },
            owner := some 0 }
    ∧ (push_off { intr := false, cpu := { noff := 1, intena := true } }).cpu.noff
      = ({ intr := false, cpu := { noff := 1, intena := true } } : IState).cpu.noff + 1 :=
  c9_lock_reentrant_fatal "proc" 0
    { istate := { intr := false, cpu := { noff := 1, intena := true } }, owner := some 0 } rfl

/-- C10: when the calling hart has no current process, `wakeup` leaves
every slot's guarded fields unchanged. -/
theorem c10_wakeup_without_myproc (chan : Nat) (procs : List ProcControl) :
    wakeup none chan procs = procs :=
  wakeupGo_none chan 0 procs

/-- C6: `sched` panics, and performs no context switch, whenever one of
its four preconditions is violated (checked in source order: slot lock not
held, nesting depth not 1, state still Running, interrupts enabled); when
all four hold it reaches `swtch` and the restoring store leaves
`mycpu().intena` at the saved pre-switch value, whatever value
(`d`) the scheduler loop left there. -/
theorem c6_sched_checks (p : SchedIn) (d : Bool) :
    (p.holdingP = false →
      sched (some p) d = SchedResult.panicked "sched: not holding p->lock")
    ∧ (p.holdingP = true → p.noff ≠ 1 →
      sched (some p) d = SchedResult.panicked "sched: cpus.mycpu.noff != 1")
    ∧ (p.holdingP = true → p.noff = 1 → p.state = ProcState.Running →
      sched (some p) d = SchedResult.panicked "sched: proc is running")
    ∧ (p.holdingP = true → p.noff = 1 → p.state ≠ ProcState.Running → p.intr = true →
      sched (some p) d = SchedResult.panicked "sched: interrupts are enabled")
    ∧ (p.holdingP = true → p.noff = 1 → p.state ≠ ProcState.Running → p.intr = false →
      sched (some p) d = SchedResult.switched p.intena) := by
  refine ⟨?_, ?_, ?_, ?_, ?_⟩ <;>
    · intros
      simp [sched, *]

/-- Witness for C6: a Runnable process, slot lock held, depth 1,
interrupts off. -/
theorem c6_sched_checks_witness :
    (let p : SchedIn := { holdingP := true, noff := 1, state := ProcState.Runnable,
                          intr := false, intena := true }
    (p.holdingP = false →
      sched (some p) false = SchedResult.panicked "sched: not holding p->lock")
    ∧ (p.holdingP = true → p.noff ≠ 1 →
      sched (some p) false = SchedResult.panicked "sched: cpus.mycpu.noff != 1")
    ∧ (p.holdingP = true → p.noff = 1 → p.state = ProcState.Running →
      sched (some p) false = SchedResult.panicked "sched: proc is running")
    ∧ (p.holdingP = true → p.noff = 1 → p.state ≠ ProcState.Running → p.intr = true →
      sched (some p) false = SchedResult.panicked "sched: interrupts are enabled")
    ∧ (p.holdingP = true → p.noff = 1 → p.state ≠ ProcState.Running → p.intr = false →
      sched (some p) false = SchedResult.switched p.intena)) :=
  c6_sched_checks
    { holdingP := true, noff := 1, state := ProcState.Runnable, intr := false, intena := true }
    false

/-- C2: `wakeup (some me) ch` keeps the table's length; the slot at any
index `j` other than `me` is set to Runnable, with all other guarded
fields kept, exactly when it was Sleeping on channel `ch`; every other
slot — in particular the caller's own slot `me`, even if it is Sleeping on
`ch` — is unchanged. -/
theorem c2_wakeup_per_slot (me ch j : Nat) (procs : List ProcControl)
    (p : ProcControl) (hj : procs[j]? = some p) :
    (wakeup (some me) ch procs).length = procs.length
    ∧ (wakeup (some me) ch procs)[j]? =
        some (if j ≠ me ∧ p.state = ProcState.Sleeping ∧ p.chan = some ch
              then { p with state := ProcState.Runnable }
              else p) := by
  constructor
  · rw [wakeup]
    exact wakeupGo_length (some me) ch procs 0
  · rw [wakeup, wakeupGo_getElem (some me) ch procs 0 j, hj]
    have hb : wakeupBody (some me) ch (0 + j) p
        = if j = me then p else wakeupSlot ch p := by
      rw [Nat.zero_add, wakeupBody_some]
    have hm : Option.map (wakeupBody (some me) ch (0 + j)) (some p)
        = some (wakeupBody (some me) ch (0 + j) p) := rfl
    rw [hm, hb, wakeupSlot_eq]
    congr 1
    by_cases hme : j = me
    · simp [hme]
    · simp [hme, and_assoc]

/-- Witness for C2: slot A Sleeping on channel 5 is woken by the process
in slot B. -/
theorem c2_wakeup_per_slot_witness :
    (wakeup (some 1) 5
        [ { state := ProcState.Sleeping, chan := some 5, killed := false, xstate := 0, pid := 1 },
          { state := ProcState.Running, chan := none, killed := false, xstate := 0, pid := 2 } ]).length
      = ([ { state := ProcState.Sleeping, chan := some 5, killed := false, xstate := 0, pid := 1 },
           { state := ProcState.Running, chan := none, killed := false, xstate := 0, pid := 2 } ] :
          List ProcControl).length
    ∧ (wakeup (some 1) 5
        [ { state := ProcState.Sleeping, chan := some 5, killed := false, xstate := 0, pid := 1 },
          { state := ProcState.Running, chan := none, killed := false, xstate := 0, pid := 2 } ])[0]? =
        some (if 0 ≠ 1
                ∧ ({ state := ProcState.Sleeping, chan := some 5, killed := false,
                     xstate := 0, pid := 1 } : ProcControl).state = ProcState.Sleeping
                ∧ ({ state := ProcState.Sleeping, chan := some 5, killed := false,
                     xstate := 0, pid := 1 } : ProcControl).chan = some 5
              then { ({ state := ProcState.Sleeping, chan := some 5, killed := false,
                        xstate := 0, pid := 1 } : ProcControl) with state := ProcState.Runnable }
              else { state := ProcState.Sleeping, chan := some 5, killed := false,
                     xstate := 0, pid := 1 }) :=
  c2_wakeup_per_slot 1 5 0
    [ { state := ProcState.Sleeping, chan := some 5, killed := false, xstate := 0, pid := 1 },
      { state := ProcState.Running, chan := none, killed := false, xstate := 0, pid := 2 } ]
    { state := ProcState.Sleeping, chan := some 5, killed := false, xstate := 0, pid := 1 }
    rfl

/-- C1: `sleep(chan, guard)` called exactly as the spec's protocol
prescribes — the external guard held as the calling thread's only lock
(`noff = 1`, interrupts off), the slot lock free — does set Sleeping and
record the channel under the slot lock after force-releasing the guard,
but reaches `sched` at nesting depth 2, because `force_unlock` skips the
`pop_off` a normal guard release performs; `sched`'s fatal depth check
fires instead of the claimed clean handoff. -/
theorem c1_sleep_hits_sched_depth_panic (me ch : Nat) (e : Bool) (ctrl : ProcControl) :
    sleep me ch true
        { istate := { intr := false, cpu := { noff := 1, intena := e } },
          guardOwner := some me, controlOwner := none, ctrl := ctrl }
      = SleepOutcome.panicked "sched: cpus.mycpu.noff != 1"
          { istate := { intr := false, cpu := { noff := 2, intena := e } },
            guardOwner := none, controlOwner := some me,
            ctrl := { ctrl with chan := some ch, state := ProcState.Sleeping } } := by
  simp [sleep, push_off, pop_off, SpinMutex.lock, holding, sched]

/-- C4: `proc_dump` takes each slot's control lock in turn, so with slot
0's lock owned by another hart the call spins forever (refuting "acquires
no lock, never blocks"); on a lock-free table it does report pid, state
and name for exactly the non-Unused slots, in order. -/
theorem c4_proc_dump_locks_and_reports :
    proc_dump 0 { intr := true, cpu := { noff := 0, intena := false } }
        [ { owner := some 1,
            ctrl := { state := ProcState.Runnable, chan := none, killed := false,
                      xstate := 0, pid := 7 },
            name := "sh" } ]
      = DumpOutcome.blocked 0 { intr := false, cpu := { noff := 1, intena := true } }
    ∧ proc_dump 0 { intr := true, cpu := { noff := 0, intena := false } }
        [ { owner := none,
            ctrl := { state := ProcState.Sleeping, chan := some 5, killed := false,
                      xstate := 0, pid := 1 },
            name := "A" },
          { owner := none,
            ctrl := { state := ProcState.Runnable, chan := none, killed := false,
                      xstate := 0, pid := 2 },
            name := "B" },
          { owner := none,
            ctrl := { state := ProcState.Unused, chan := none, killed := false,
                      xstate := 0, pid := 0 },
            name := "" } ]
      = DumpOutcome.done [(1, ProcState.Sleeping, "A"), (2, ProcState.Runnable, "B")]
          { intr := true, cpu := { noff := 0, intena := true } } := by
  constructor <;> rfl

/-- C5 counterexample: a table satisfying the claimed two-directional
invariant on which a single `wakeup` call breaks it — the woken slot
becomes Runnable but still carries `chan = some 5`, since `wakeup` leaves
the channel to be cleared later by the resumed sleeper. -/
theorem c5_wakeup_breaks_chan_iff :
    sleepChanIff
      [ { state := ProcState.Running, chan := none, killed := false, xstate := 0, pid := 1 },
        { state := ProcState.Sleeping, chan := some 5, killed := false, xstate := 0, pid := 2 } ]
    ∧ ¬ sleepChanIff
        (wakeup (some 0) 5
          [ { state := ProcState.Running, chan := none, killed := false, xstate := 0, pid := 1 },
            { state := ProcState.Sleeping, chan := some 5, killed := false, xstate := 0, pid := 2 } ])
    ∧ (wakeup (some 0) 5
        [ { state := ProcState.Running, chan := none, killed := false, xstate := 0, pid := 1 },
          { state := ProcState.Sleeping, chan := some 5, killed := false, xstate := 0, pid := 2 } ])[1]?
      = some { state := ProcState.Runnable, chan := some 5, killed := false, xstate := 0, pid := 2 } := by
  refine ⟨?_, ?_, by decide⟩
  · unfold sleepChanIff
    decide
  · unfold sleepChanIff
    decide

/-- C5 amended: every operation preserves the direction that the code
actually maintains — a Sleeping slot always has a channel recorded; the
converse direction fails transiently after `wakeup` until the resumed
sleeper clears the channel. -/
theorem c5_sleeping_has_chan_preserved (t t' : List ProcControl)
    (hstep : TableStep t t') (hinv : sleepChanInv t) : sleepChanInv t' := by
  cases hstep with
  | wakeupStep mp ch => exact sleepChanInv_wakeupGo mp ch t 0 hinv
  | sleepSet i ch p hget hrun =>
      intro q hq hsleep
      rcases mem_setSlot t i _ q hq with hql | hqb
      · exact hinv q hql hsleep
      · subst hqb
        rfl
  | sleepClear i p hget hrun =>
      intro q hq hsleep
      rcases mem_setSlot t i _ q hq with hql | hqb
      · exact hinv q hql hsleep
      · subst hqb
        have hss : p.state = ProcState.Sleeping := hsleep
        rw [hrun] at hss
        exact absurd hss (by decide)
  | schedStep => exact hinv
  | schedulerDispatch i p hget hrun =>
      intro q hq hsleep
      rcases mem_setSlot t i _ q hq with hql | hqb
      · exact hinv q hql hsleep
      · subst hqb
        have hss : ProcState.Running = ProcState.Sleeping := hsleep
        exact absurd hss (by decide)

/-- Witness for the amended C5: one wakeup step from a table with a
Sleeping slot on channel 5. -/
theorem c5_sleeping_has_chan_preserved_witness :
    sleepChanInv
      (wakeup (some 0) 5
        [ { state := ProcState.Sleeping, chan := some 5, killed := false, xstate := 0, pid := 2 } ]) :=
  c5_sleeping_has_chan_preserved
    [ { state := ProcState.Sleeping, chan := some 5, killed := false, xstate := 0, pid := 2 } ]
    _
    (TableStep.wakeupStep
      [ { state := ProcState.Sleeping, chan := some 5, killed := false, xstate := 0, pid := 2 } ]
      (some 0) 5)
    (by unfold sleepChanInv; decide)

theorem configInv_init (pid0 : Nat) : ConfigInv (initConfig pid0) := by
  unfold ConfigInv initConfig
  refine ⟨fun _ => ⟨rfl, rfl, rfl⟩, ?_, ?_, ?_, ?_, ?_, ?_⟩ <;> simp

theorem configInv_step (ch : Nat) (b c : Config) (hstep : Step ch b c)
    (hinv : ConfigInv b) : ConfigInv c := by
  obtain ⟨h0, h1, h2, h3, h4, h5, h6⟩ := hinv
  cases hstep with
  | sAcquire hpc hco =>
      obtain ⟨hg, -, hn⟩ := h0 hpc
      unfold ConfigInv
      dsimp only
      exact ⟨fun h => absurd h (by omega), fun _ => hg, fun _ => ⟨rfl, by omega⟩,
        fun hw => absurd (h3 hw) (by omega), h4, by omega, h6⟩
  | sForceUnlock hpc =>
      unfold ConfigInv
      dsimp only
      exact ⟨fun h => absurd h (by omega), fun h => absurd h (by omega),
        fun _ => h2 (by omega), fun _ => by omega, h4, by omega, h6⟩
  | sSetChan hpc =>
      unfold ConfigInv
      dsimp only
      exact ⟨fun h => absurd h (by omega), fun h => absurd h (by omega),
        fun _ => h2 (by omega), fun _ => by omega, h4, by omega, h6⟩
  | sSetSleeping hpc =>
      unfold ConfigInv
      dsimp only
      exact ⟨fun h => absurd h (by omega), fun h => absurd h (by omega),
        fun _ => h2 (by omega), fun _ => by omega, h4, by omega, by decide⟩
  | sSchedPanic hpc hnoff =>
      unfold ConfigInv
      dsimp only
      exact ⟨fun h => absurd h (by omega), fun h => absurd h (by omega),
        fun _ => h2 (by omega), fun _ => by omega, h4, by omega, h6⟩
  | sSchedSwitch hpc hnoff =>
      have hn2 : b.noffS = 2 := (h2 (by omega)).2
      exact absurd hn2 (by omega)
  | wAcquireGuard hpw hg =>
      have hps : 2 ≤ b.pcS := by
        by_contra hlt
        push_neg at hlt
        have hcases : b.pcS = 0 ∨ b.pcS = 1 := by omega
        rcases hcases with hz | ho
        · have hgs := (h0 hz).1
          rw [hg] at hgs
          exact Option.noConfusion hgs
        · have hgs := h1 ho
          rw [hg] at hgs
          exact Option.noConfusion hgs
      unfold ConfigInv
      dsimp only
      exact ⟨fun h => absurd h (by omega), fun h => absurd h (by omega),
        fun hh => h2 hh, fun _ => hps, by omega, h5, h6⟩
  | wReleaseGuard hpw =>
      have hps : 2 ≤ b.pcS := h3 (by omega)
      unfold ConfigInv
      dsimp only
      exact ⟨fun h => absurd h (by omega), fun h => absurd h (by omega),
        fun hh => h2 hh, fun _ => hps, by omega, h5, h6⟩
  | wAcquireControl hpw hco =>
      have hps : 2 ≤ b.pcS := h3 (by omega)
      have hcs : b.controlOwner = some 0 := (h2 (by omega)).1
      rw [hco] at hcs
      exact Option.noConfusion hcs
  | wCheck hpw =>
      exact absurd h4 (by omega)
  | wRelease hpw =>
      exact absurd h4 (by omega)

theorem configInv_reach (ch pid0 : Nat) (c : Config)
    (h : Reach ch (initConfig pid0) c) : ConfigInv c := by
  induction h with
  | refl => exact configInv_init pid0
  | tail hr hs ih => exact configInv_step ch _ _ hs ih

/-- C3: refuted on this code.  In the canonical lost-wakeup scenario — a
process sleeps on `ch` holding the shared guard as its only lock, and
another hart produces the condition under that guard and then fires
`wakeup(ch)` — no reachable interleaving ever makes the sleeping slot
Runnable, let alone exactly once: the sleeper takes its slot lock, reaches
`sched` at depth 2 (the skipped `pop_off` of `force_unlock`), panics, and
keeps the slot lock forever, so the waker's `wakeup` can never acquire it
and the wakeup is lost. -/
theorem c3_wakeup_never_delivered (ch pid0 : Nat) (c : Config)
    (h : Reach ch (initConfig pid0) c) : c.ctrl.state ≠ ProcState.Runnable :=
  (configInv_reach ch pid0 c h).2.2.2.2.2.2

/-- Witness for C3 at the initial configuration. -/
theorem c3_wakeup_never_delivered_witness :
    (initConfig 1).ctrl.state ≠ ProcState.Runnable :=
  c3_wakeup_never_delivered 5 1 (initConfig 1) Reach.refl

end XV6
